import Mathlib

/-!
Verification of the DMARC report parser (`Collect_n_parse.pyw`).

The Python program decompresses `.zip`/`.gz` archives, parses DMARC
aggregate-report XML files with `xml.etree.ElementTree`, flattens the
parsed reports into rows, writes them to CSV with pandas, draws a chart
of the top source IPs, and finally deletes the extracted `.xml` files.

This file gives a shallow embedding of the program's data model and
operations and proves the specification's claims about them.
-/

namespace Dmarc

/-- An XML element as exposed by `xml.etree.ElementTree`: a tag, the
optional text content (`Element.text` is `None` for an element with no
text content), and the ordered list of child elements. -/
inductive Element : Type where
  | mk (tag : String) (text : Option String) (children : List Element)

/-- The element's tag. -/
def Element.tag : Element → String
  | .mk t _ _ => t

/-- The element's text content; `none` models Python `None`. -/
def Element.text : Element → Option String
  | .mk _ tx _ => tx

/-- The element's direct children, in document order. -/
def Element.children : Element → List Element
  | .mk _ _ cs => cs

/-- `element.find(tag)`: the first direct child with the given tag, or
`None` if there is none. -/
def Element.find (e : Element) (t : String) : Option Element :=
  e.children.find? (fun c => c.tag = t)

/-- `element.findall(tag)`: all direct children with the given tag, in
document order. -/
def Element.findall (e : Element) (t : String) : List Element :=
  e.children.filter (fun c => c.tag = t)

/-- `get_text_or_none(element, subelement)` from the source: if the
element (which may be `None`) is not `None`, find the subelement and
return its text (or `None` when the subelement is not found); otherwise
return `None`. -/
def get_text_or_none (element : Option Element) (subelement : String) : Option String :=
  match element with
  | some e =>
    match e.find subelement with
    | some found_element => found_element.text
    | none => none
  | none => none

/-- The `date_range` sub-dictionary of `report_metadata` built by
`parse_dmarc_xml` (`begin`/`end` are Lean keywords, hence the underscores). -/
structure DateRange where
  begin_ : Option String
  end_ : Option String
deriving DecidableEq

/-- The `report_metadata` dictionary built by `parse_dmarc_xml`. -/
structure ReportMetadata where
  org_name : Option String
  email : Option String
  report_id : Option String
  date_range : DateRange
deriving DecidableEq

/-- The `policy_published` dictionary built by `parse_dmarc_xml`. -/
structure PolicyPublished where
  domain : Option String
  adkim : Option String
  aspf : Option String
  p : Option String
  sp : Option String
  pct : Option String
deriving DecidableEq

/-- The `policy_evaluated` sub-dictionary of a record row. -/
structure PolicyEvaluated where
  disposition : Option String
  dkim : Option String
  spf : Option String
deriving DecidableEq

/-- The `identifiers` sub-dictionary of a record row. -/
structure Identifiers where
  header_from : Option String
deriving DecidableEq

/-- The `auth_results` sub-dictionary of a record row. -/
structure AuthResults where
  dkim : Option String
  spf : Option String
deriving DecidableEq

/-- One parsed `record` dictionary appended to `parsed_data['records']`. -/
structure Record where
  source_ip : Option String
  count : Option String
  policy_evaluated : PolicyEvaluated
  identifiers : Identifiers
  auth_results : AuthResults
deriving DecidableEq

/-- The dictionary returned by `parse_dmarc_xml`. -/
structure Report where
  report_metadata : ReportMetadata
  policy_published : PolicyPublished
  records : List Record
deriving DecidableEq

/-- The `report_metadata` dictionary literal in `parse_dmarc_xml`,
built from `root.find('report_metadata')` (which may be `None`). -/
def mk_report_metadata (report_metadata : Option Element) : ReportMetadata :=
  { org_name := get_text_or_none report_metadata "org_name"
    email := get_text_or_none report_metadata "email"
    report_id := get_text_or_none report_metadata "report_id"
    date_range :=
      { begin_ :=
          match report_metadata with
          | some m => get_text_or_none (m.find "date_range") "begin"
          | none => none
        end_ :=
          match report_metadata with
          | some m => get_text_or_none (m.find "date_range") "end"
          | none => none } }

/-- The `policy_published` dictionary literal in `parse_dmarc_xml`. -/
def mk_policy_published (policy_published : Option Element) : PolicyPublished :=
  { domain := get_text_or_none policy_published "domain"
    adkim := get_text_or_none policy_published "adkim"
    aspf := get_text_or_none policy_published "aspf"
    p := get_text_or_none policy_published "p"
    sp := get_text_or_none policy_published "sp"
    pct := get_text_or_none policy_published "pct" }

/-- The `row` dictionary literal built for each `record` element in the
loop of `parse_dmarc_xml`. -/
def mk_record (record : Element) : Record :=
  let row_element := record.find "row"
  let identifiers_element := record.find "identifiers"
  let auth_results_element := record.find "auth_results"
  { source_ip := get_text_or_none row_element "source_ip"
    count := get_text_or_none row_element "count"
    policy_evaluated :=
      { disposition :=
          match row_element with
          | some r => get_text_or_none (r.find "policy_evaluated") "disposition"
          | none => none
        dkim :=
          match row_element with
          | some r => get_text_or_none (r.find "policy_evaluated") "dkim"
          | none => none
        spf :=
          match row_element with
          | some r => get_text_or_none (r.find "policy_evaluated") "spf"
          | none => none }
    identifiers := { header_from := get_text_or_none identifiers_element "header_from" }
    auth_results :=
      { dkim :=
          match auth_results_element with
          | some a => get_text_or_none (a.find "dkim") "domain"
          | none => none
        spf :=
          match auth_results_element with
          | some a => get_text_or_none (a.find "spf") "domain"
          | none => none } }

/-- `parse_dmarc_xml` applied to the root element of a well-formed XML
document: builds `parsed_data` and appends one parsed record per
`record` child of the root, in document order. -/
def parse_dmarc_xml (root : Element) : Report :=
  { report_metadata := mk_report_metadata (root.find "report_metadata")
    policy_published := mk_policy_published (root.find "policy_published")
    records := (root.findall "record").foldl (fun acc record => acc ++ [mk_record record]) [] }

/-- `ET.parse` on a file: a file that is well-formed XML yields its root
element; a file that is not well-formed (which includes a file with no
root element, e.g. an empty file) raises `xml.etree.ElementTree.ParseError`,
modelled as `Except.error`. -/
def et_parse (doc : Option Element) : Except String Element :=
  match doc with
  | some root => Except.ok root
  | none => Except.error "ParseError"

/-- `parse_dmarc_xml` on a file path: `ET.parse` followed by the (total)
field extraction above. -/
def parse_dmarc_file (doc : Option Element) : Except String Report :=
  (et_parse doc).map parse_dmarc_xml

/-- One flat row built by `save_reports_to_csv`: the 19 keys of the row
dictionary, in their insertion order. -/
structure FlatRow where
  org_name : Option String
  email : Option String
  report_id : Option String
  date_range_begin : Option String
  date_range_end : Option String
  domain : Option String
  adkim : Option String
  aspf : Option String
  policy_p : Option String
  policy_sp : Option String
  policy_pct : Option String
  source_ip : Option String
  count : Option String
  disposition : Option String
  dkim : Option String
  spf : Option String
  header_from : Option String
  auth_results_dkim : Option String
  auth_results_spf : Option String
deriving DecidableEq

/-- The row dictionary literal in `save_reports_to_csv`, joining one
report's metadata/policy with one of its records. -/
def make_row (report : Report) (record : Record) : FlatRow :=
  { org_name := report.report_metadata.org_name
    email := report.report_metadata.email
    report_id := report.report_metadata.report_id
    date_range_begin := report.report_metadata.date_range.begin_
    date_range_end := report.report_metadata.date_range.end_
    domain := report.policy_published.domain
    adkim := report.policy_published.adkim
    aspf := report.policy_published.aspf
    policy_p := report.policy_published.p
    policy_sp := report.policy_published.sp
    policy_pct := report.policy_published.pct
    source_ip := record.source_ip
    count := record.count
    disposition := record.policy_evaluated.disposition
    dkim := record.policy_evaluated.dkim
    spf := record.policy_evaluated.spf
    header_from := record.identifiers.header_from
    auth_results_dkim := record.auth_results.dkim
    auth_results_spf := record.auth_results.spf }

/-- The `rows` list built by the nested loops of `save_reports_to_csv`:
starting from the empty list, for each report and each of its records,
append one row. -/
def save_reports_rows (reports : List Report) : List FlatRow :=
  reports.foldl
    (fun rows report =>
      report.records.foldl (fun rows record => rows ++ [make_row report record]) rows)
    []

/-- The CSV header written by `pd.DataFrame(rows).to_csv(..., index=False)`
when `rows` is a non-empty list of the row dictionaries above: the
columns of the DataFrame, i.e. the 19 dictionary keys in insertion order. -/
def csvHeader : List String :=
  ["org_name", "email", "report_id", "date_range_begin", "date_range_end",
   "domain", "adkim", "aspf", "policy_p", "policy_sp", "policy_pct",
   "source_ip", "count", "disposition", "dkim", "spf", "header_from",
   "auth_results_dkim", "auth_results_spf"]

/-- One CSV data line: the 19 values in column order, a `None` value
(pandas `NaN`) rendered as the empty cell. -/
def render_row (r : FlatRow) : List String :=
  [r.org_name.getD "", r.email.getD "", r.report_id.getD "",
   r.date_range_begin.getD "", r.date_range_end.getD "",
   r.domain.getD "", r.adkim.getD "", r.aspf.getD "",
   r.policy_p.getD "", r.policy_sp.getD "", r.policy_pct.getD "",
   r.source_ip.getD "", r.count.getD "", r.disposition.getD "",
   r.dkim.getD "", r.spf.getD "", r.header_from.getD "",
   r.auth_results_dkim.getD "", r.auth_results_spf.getD ""]

/-- The lines of the CSV written by `save_reports_to_csv`:
`pd.DataFrame(rows)` takes its columns from the row dictionaries' keys,
and `to_csv(..., index=False)` writes the header line then one line per
row. When `rows` is empty, `pd.DataFrame([])` has no columns at all and
`to_csv` writes a single empty line, modelled as `[[]]`. -/
def to_csv_lines (rows : List FlatRow) : List (List String) :=
  if rows = [] then [[]] else csvHeader :: rows.map render_row

/-- `save_reports_to_csv` end to end at the level of CSV lines. -/
def save_reports_to_csv (reports : List Report) : List (List String) :=
  to_csv_lines (save_reports_rows reports)

/-- Python `basename.replace('.gz', '')` on the character list of a
string: scan left to right, removing every (non-overlapping) occurrence
of the three characters `.gz`. -/
def removeGz : List Char → List Char
  | [] => []
  | [c] => [c]
  | [c, d] => [c, d]
  | c :: d :: e :: rest =>
    if c = '.' ∧ d = 'g' ∧ e = 'z' then removeGz rest
    else c :: removeGz (d :: e :: rest)

/-- The output file name computed by `decompress_gz_files` for an input
whose basename is `basename`: `os.path.basename(gz_file).replace('.gz', '')`. -/
def gz_output_name (basename : String) : String :=
  ⟨removeGz basename.data⟩

/-- Whether `.gz` occurs anywhere in a character list. -/
def containsGz : List Char → Bool
  | c :: d :: e :: rest => (c = '.' ∧ d = 'g' ∧ e = 'z') || containsGz (d :: e :: rest)
  | _ => false

/-- Python `s.endswith(suffix)` at the level of character lists. -/
def pyEndsWith (s : String) (suf : List Char) : Bool :=
  suf.isSuffixOf s.data

/-- Modelled from the spec: the output name the claim describes — the
basename with only the trailing `.gz` suffix stripped, the rest of the
name unchanged. -/
def claimed_gz_name (basename : String) : String :=
  if pyEndsWith basename ['.', 'g', 'z'] then
    ⟨basename.data.take (basename.data.length - 3)⟩
  else basename

/-- `cleanup_extracted_files(output_dir)`: walking the directory tree and
deleting every file whose name ends in `.xml` leaves exactly the files
whose names do not end in `.xml`. The filesystem is modelled as the list
of (relative) paths of the files under the directory; `os.walk` never
yields the directories themselves for deletion. -/
def cleanup_extracted_files (files : List String) : List String :=
  files.filter (fun f => !(pyEndsWith f ['.', 'x', 'm', 'l']))

/-- The module-level `try/finally` of the script: whether the body
(extraction, parsing, CSV writing, charting) succeeds or raises, the
`finally` clause runs `cleanup_extracted_files` on the working directory.
Returns the files remaining in the working directory. -/
def pipeline_run (outcome : Except String Unit) (files : List String) : List String :=
  match outcome with
  | Except.ok _ => cleanup_extracted_files files
  | Except.error _ => cleanup_extracted_files files

/-- The comparison used to order the grouped sums descending by summed
count: `a` may come before `b` when `b`'s sum is at most `a`'s. -/
def byCountDesc (a b : String × Nat) : Prop := b.2 ≤ a.2

instance : DecidableRel byCountDesc := fun a b => Nat.decLe b.2 a.2

instance : IsTotal (String × Nat) byCountDesc :=
  ⟨fun a b => (Nat.le_total b.2 a.2).elim Or.inl Or.inr⟩

instance : IsTrans (String × Nat) byCountDesc :=
  ⟨fun _ _ _ h1 h2 => Nat.le_trans h2 h1⟩

/-- Lexicographic comparison of character lists, modelling Python's
string comparison used by `groupby`'s key sort. -/
def lexLe : List Char → List Char → Bool
  | [], _ => true
  | _ :: _, [] => false
  | c :: cs, d :: ds => if c = d then lexLe cs ds else decide (c < d)

/-- Key order on `source_ip` strings: lexicographic on the characters. -/
def strLe (a b : String) : Prop := lexLe a.data b.data = true

instance : DecidableRel strLe := fun a b => instDecidableEqBool (lexLe a.data b.data) true

/-- The distinct `source_ip` keys of the rows, sorted ascending:
`df.groupby('source_ip')` (with its default `sort=True`) orders the
groups by key. `dedup`/sort together yield each key once, ascending. -/
def group_keys (rows : List (String × Nat)) : List String :=
  ((rows.map Prod.fst).dedup).insertionSort strLe

/-- `df.groupby('source_ip')['count'].sum()`: for each key (ascending),
the sum of the `count` values of the rows carrying that key. -/
def group_sums (rows : List (String × Nat)) : List (String × Nat) :=
  (group_keys rows).map (fun k => (k, ((rows.filter (fun r => r.1 = k)).map Prod.snd).sum))

/-- `.nlargest(20)` on the grouped sums: the 20 largest by summed count,
returned descending; pandas' default `keep='first'` breaks ties by the
earlier position in the series, which the stable insertion sort models. -/
def top_source_ips (rows : List (String × Nat)) : List (String × Nat) :=
  ((group_sums rows).insertionSort byCountDesc).take 20

/-! ### Helper lemmas -/

/-- A left fold that appends one image per element is a map. -/
theorem foldl_append_singleton {α β : Type} (f : α → β) :
    ∀ (l : List α) (acc : List β),
      l.foldl (fun a x => a ++ [f x]) acc = acc ++ l.map f := by
  intro l
  induction l with
  | nil => intro acc; simp
  | cons x xs ih =>
    intro acc
    simp only [List.foldl_cons, List.map_cons, ih]
    simp

/-- The nested accumulation of `save_reports_to_csv` is a `bind`. -/
theorem save_rows_foldl_eq_bind :
    ∀ (reports : List Report) (acc : List FlatRow),
      reports.foldl
        (fun rows report =>
          report.records.foldl (fun rows record => rows ++ [make_row report record]) rows)
        acc
      = acc ++ reports.flatMap (fun report => report.records.map (make_row report)) := by
  intro reports
  induction reports with
  | nil => intro acc; simp
  | cons report rs ih =>
    intro acc
    simp only [List.foldl_cons]
    rw [foldl_append_singleton, ih, List.flatMap_cons, List.append_assoc]

/-- The `rows` list of `save_reports_to_csv` is the concatenation, over
the reports in order, of each report's records mapped to flat rows. -/
theorem save_reports_rows_eq_bind (reports : List Report) :
    save_reports_rows reports
      = reports.flatMap (fun report => report.records.map (make_row report)) := by
  simpa using save_rows_foldl_eq_bind reports []

/-- The record loop of `parse_dmarc_xml` maps `mk_record` over the
`record` children of the root, in document order. -/
theorem parse_records_eq_map (root : Element) :
    (parse_dmarc_xml root).records = (root.findall "record").map mk_record := by
  simpa [parse_dmarc_xml] using foldl_append_singleton mk_record (root.findall "record") []

/-! ### Claims -/

/-- C2: flattening a sequence of parsed Reports produces exactly one flat
row per Record — the row count is the sum of the reports' record counts —
and the flat rows are each report's records mapped to rows carrying that
(and only that) report's metadata and policy values. -/
theorem flatten_row_count_and_parent_fields (reports : List Report) :
    (save_reports_rows reports).length
      = (reports.map (fun report => report.records.length)).sum
    ∧ save_reports_rows reports
      = reports.flatMap (fun report => report.records.map (make_row report)) := by
  refine ⟨?_, save_reports_rows_eq_bind reports⟩
  rw [save_reports_rows_eq_bind reports, List.length_flatMap]
  simp [Function.comp_def, List.length_map]

/-- C3: `parse_dmarc_xml` raises `ParseError` exactly on structurally
invalid files: `ET.parse` fails on a file that is not well-formed XML
(which includes a file with no root element), and on every well-formed
document the field extraction succeeds — it raises in no other case. -/
theorem parse_error_iff_not_well_formed :
    (∀ root : Element, parse_dmarc_file (some root) = Except.ok (parse_dmarc_xml root))
    ∧ (∀ doc : Option Element,
        (∃ msg, parse_dmarc_file doc = Except.error msg) ↔ doc = none) := by
  constructor
  · intro root; rfl
  · intro doc
    cases doc with
    | some root => simp [parse_dmarc_file, et_parse, Except.map]
    | none => simp [parse_dmarc_file, et_parse, Except.map]

/-- C3 witness: at a concrete well-formed document parsing succeeds, and
at a non-well-formed file it fails with `ParseError`. -/
theorem parse_error_iff_not_well_formed_witness :
    parse_dmarc_file (some (Element.mk "feedback" none []))
      = Except.ok (parse_dmarc_xml (Element.mk "feedback" none []))
    ∧ parse_dmarc_file none = Except.error "ParseError" := by
  refine ⟨parse_error_iff_not_well_formed.1 (Element.mk "feedback" none []), ?_⟩
  have h := (parse_error_iff_not_well_formed.2 none).2 rfl
  exact rfl

/-- C4: the flattened output is the concatenation of the reports' row
blocks in report order; each report's records come out of the parser in
document order (the `record` children mapped in order); and no
deduplication happens — `n` identical records yield `n` identical rows. -/
theorem flatten_order_concat_no_dedup :
    (∀ r1 r2 : List Report,
        save_reports_rows (r1 ++ r2) = save_reports_rows r1 ++ save_reports_rows r2)
    ∧ (∀ root : Element,
        (parse_dmarc_xml root).records = (root.findall "record").map mk_record)
    ∧ (∀ (report : Report) (n : Nat) (record : Record),
        report.records = List.replicate n record →
        save_reports_rows [report] = List.replicate n (make_row report record)) := by
  refine ⟨?_, parse_records_eq_map, ?_⟩
  · intro r1 r2
    simp [save_reports_rows_eq_bind]
  · intro report n record h
    simp [save_reports_rows_eq_bind, h]

/-- C4 witness: a report with two identical records yields two identical
rows, and flattening two singleton report lists concatenates. -/
theorem flatten_order_concat_no_dedup_witness :
    save_reports_rows
        [⟨mk_report_metadata none, mk_policy_published none,
          List.replicate 2 (mk_record (Element.mk "record" none []))⟩]
      = List.replicate 2
          (make_row
            ⟨mk_report_metadata none, mk_policy_published none,
              List.replicate 2 (mk_record (Element.mk "record" none []))⟩
            (mk_record (Element.mk "record" none []))) := by
  exact flatten_order_concat_no_dedup.2.2
    ⟨mk_report_metadata none, mk_policy_published none,
      List.replicate 2 (mk_record (Element.mk "record" none []))⟩
    2 (mk_record (Element.mk "record" none [])) rfl

/-- Generic first-match property of `List.find?`: scanning a list whose
matching element is preceded only by non-matching ones returns it. -/
theorem find?_first (p : Element → Bool) (m : Element) (after : List Element)
    (hm : p m = true) :
    ∀ before : List Element, (∀ x ∈ before, p x = false) →
      List.find? p (before ++ m :: after) = some m := by
  intro before
  induction before with
  | nil => intro _; simp [List.find?_cons, hm]
  | cons x xs ih =>
    intro hb
    have hx : p x = false := hb x (by simp)
    simp only [List.cons_append, List.find?_cons, hx]
    exact ih (fun y hy => hb y (by simp [hy]))

/-- C1: `parse_dmarc_xml` never raises on a well-formed document with
optional nodes absent (in this embedding it is a total function), and
every field beneath a missing node is `none` — no default substituted —
while the enclosing record is kept: a record element with no children
still yields an all-`none` Record, and the number of parsed records is
the number of `record` children. -/
theorem parse_null_on_absent_nodes (root record : Element) :
    (root.find "report_metadata" = none →
      (parse_dmarc_xml root).report_metadata = ⟨none, none, none, ⟨none, none⟩⟩)
    ∧ (∀ m, root.find "report_metadata" = some m → m.find "date_range" = none →
        (parse_dmarc_xml root).report_metadata.date_range = ⟨none, none⟩)
    ∧ (root.find "policy_published" = none →
        (parse_dmarc_xml root).policy_published = ⟨none, none, none, none, none, none⟩)
    ∧ (record.find "row" = none →
        (mk_record record).source_ip = none ∧ (mk_record record).count = none
        ∧ (mk_record record).policy_evaluated = ⟨none, none, none⟩)
    ∧ (∀ r, record.find "row" = some r → r.find "policy_evaluated" = none →
        (mk_record record).policy_evaluated = ⟨none, none, none⟩)
    ∧ (record.find "identifiers" = none → (mk_record record).identifiers = ⟨none⟩)
    ∧ (record.find "auth_results" = none → (mk_record record).auth_results = ⟨none, none⟩)
    ∧ (∀ a, record.find "auth_results" = some a → a.find "dkim" = none →
        (mk_record record).auth_results.dkim = none)
    ∧ (∀ a, record.find "auth_results" = some a → a.find "spf" = none →
        (mk_record record).auth_results.spf = none)
    ∧ (record.children = [] →
        mk_record record = ⟨none, none, ⟨none, none, none⟩, ⟨none⟩, ⟨none, none⟩⟩)
    ∧ (parse_dmarc_xml root).records.length = (root.findall "record").length := by
  refine ⟨?_, ?_, ?_, ?_, ?_, ?_, ?_, ?_, ?_, ?_, ?_⟩
  · intro h; simp [parse_dmarc_xml, mk_report_metadata, h, get_text_or_none]
  · intro m hm hd; simp [parse_dmarc_xml, mk_report_metadata, hm, hd, get_text_or_none]
  · intro h; simp [parse_dmarc_xml, mk_policy_published, h, get_text_or_none]
  · intro h; simp [mk_record, h, get_text_or_none]
  · intro r hr hp; simp [mk_record, hr, hp, get_text_or_none]
  · intro h; simp [mk_record, h, get_text_or_none]
  · intro h; simp [mk_record, h, get_text_or_none]
  · intro a ha hd; simp [mk_record, ha, hd, get_text_or_none]
  · intro a ha hs; simp [mk_record, ha, hs, get_text_or_none]
  · intro h; simp [mk_record, Element.find, h, get_text_or_none]
  · rw [parse_records_eq_map]; simp

/-- C1 witness: a root with no children parses to an all-`none` report
and a childless record element yields the all-`none` Record. -/
theorem parse_null_on_absent_nodes_witness :
    (parse_dmarc_xml (Element.mk "feedback" none [])).report_metadata
      = ⟨none, none, none, ⟨none, none⟩⟩
    ∧ (parse_dmarc_xml (Element.mk "feedback" none [])).policy_published
      = ⟨none, none, none, none, none, none⟩
    ∧ mk_record (Element.mk "record" none [])
      = ⟨none, none, ⟨none, none, none⟩, ⟨none⟩, ⟨none, none⟩⟩ := by
  have h := parse_null_on_absent_nodes (Element.mk "feedback" none [])
    (Element.mk "record" none [])
  exact ⟨h.1 rfl, h.2.2.1 rfl, h.2.2.2.2.2.2.2.2.2.1 rfl⟩

/-- C9: a present-but-empty element (one whose `text` is `None`, as for
`<org_name/>`) yields a `none` field value, indistinguishable from the
value extracted beneath an absent parent; likewise through
`parse_dmarc_xml` for an empty `org_name` under `report_metadata`. -/
theorem present_but_empty_is_null (element e : Element) (sub : String)
    (hfind : element.find sub = some e) (htext : e.text = none) :
    get_text_or_none (some element) sub = none
    ∧ get_text_or_none (some element) sub = get_text_or_none none sub
    ∧ (∀ root : Element, root.find "report_metadata" = some element → sub = "org_name" →
        (parse_dmarc_xml root).report_metadata.org_name = none) := by
  refine ⟨?_, ?_, ?_⟩
  · simp [get_text_or_none, hfind, htext]
  · simp [get_text_or_none, hfind, htext]
  · intro root hr hs
    subst hs
    simp [parse_dmarc_xml, mk_report_metadata, hr, get_text_or_none, hfind, htext]

/-- C9 witness: a report whose `report_metadata` contains an empty
`<org_name/>` parses with `org_name = none`. -/
theorem present_but_empty_is_null_witness :
    get_text_or_none
        (some (Element.mk "report_metadata" none [Element.mk "org_name" none []]))
        "org_name" = none
    ∧ (parse_dmarc_xml
          (Element.mk "feedback" none
            [Element.mk "report_metadata" none
              [Element.mk "org_name" none []]])).report_metadata.org_name = none := by
  have h := present_but_empty_is_null
    (Element.mk "report_metadata" none [Element.mk "org_name" none []])
    (Element.mk "org_name" none []) "org_name" rfl rfl
  exact ⟨h.1,
    h.2.2 (Element.mk "feedback" none
      [Element.mk "report_metadata" none [Element.mk "org_name" none []]]) rfl rfl⟩

/-- C10: when several sibling elements share a tag, `find` returns the
first in document order, so `parse_dmarc_xml` extracts fields from the
first such element and ignores the rest; only `record` children of the
root are all retained (one parsed record per `record` child). -/
theorem first_sibling_selected :
    (∀ (tg : String) (tx : Option String) (before : List Element) (m : Element)
        (after : List Element) (t : String),
        m.tag = t → (∀ x ∈ before, x.tag ≠ t) →
        Element.find (Element.mk tg tx (before ++ m :: after)) t = some m)
    ∧ (∀ root m : Element, root.find "report_metadata" = some m →
        (parse_dmarc_xml root).report_metadata = mk_report_metadata (some m))
    ∧ (∀ root m : Element, root.find "policy_published" = some m →
        (parse_dmarc_xml root).policy_published = mk_policy_published (some m))
    ∧ (∀ (tg : String) (tx : Option String) (cs : List Element),
        (parse_dmarc_xml (Element.mk tg tx cs)).records
          = (cs.filter (fun c => c.tag = "record")).map mk_record) := by
  refine ⟨?_, ?_, ?_, ?_⟩
  · intro tg tx before m after t hm hb
    have : Element.find (Element.mk tg tx (before ++ m :: after)) t
        = List.find? (fun c => c.tag = t) (before ++ m :: after) := rfl
    rw [this]
    exact find?_first _ m after (by simp [hm]) before (fun x hx => by simp [hb x hx])
  · intro root m h; simp [parse_dmarc_xml, h]
  · intro root m h; simp [parse_dmarc_xml, h]
  · intro tg tx cs
    rw [parse_records_eq_map]
    rfl

/-- C10 witness: with two `report_metadata` siblings the first one's
`org_name` is extracted and the second is ignored. -/
theorem first_sibling_selected_witness :
    Element.find
        (Element.mk "feedback" none
          [Element.mk "report_metadata" none [Element.mk "org_name" (some "first") []],
           Element.mk "report_metadata" none [Element.mk "org_name" (some "second") []]])
        "report_metadata"
      = some (Element.mk "report_metadata" none [Element.mk "org_name" (some "first") []])
    ∧ (parse_dmarc_xml
          (Element.mk "feedback" none
            [Element.mk "report_metadata" none [Element.mk "org_name" (some "first") []],
             Element.mk "report_metadata" none
               [Element.mk "org_name" (some "second") []]])).report_metadata.org_name
      = some "first" := by
  have h1 := first_sibling_selected.1 "feedback" none []
    (Element.mk "report_metadata" none [Element.mk "org_name" (some "first") []])
    [Element.mk "report_metadata" none [Element.mk "org_name" (some "second") []]]
    "report_metadata" rfl (by intro x hx; cases hx)
  refine ⟨h1, ?_⟩
  have h2 := first_sibling_selected.2.1
    (Element.mk "feedback" none
      [Element.mk "report_metadata" none [Element.mk "org_name" (some "first") []],
       Element.mk "report_metadata" none [Element.mk "org_name" (some "second") []]])
    (Element.mk "report_metadata" none [Element.mk "org_name" (some "first") []]) h1
  rw [h2]
  rfl

/-- C5 counterexample: for the empty report sequence the flattened row
list is empty, `pd.DataFrame([])` has no columns, and the written CSV's
only line is empty — not the 19-column header the claim promises for
every input sequence. -/
theorem csv_header_counterexample :
    save_reports_to_csv [] = [[]]
    ∧ csvHeader.length = 19
    ∧ (save_reports_to_csv []).head? ≠ some csvHeader := by
  refine ⟨rfl, rfl, ?_⟩
  intro h
  simp only [save_reports_to_csv, save_reports_rows, to_csv_lines] at h
  simp at h
  exact absurd h (by decide)

/-- C5 (amended): for every report sequence that flattens to at least one
row, the CSV starts with the fixed 19-column header (the names in their
fixed order) followed by one line per row, and a `none` field renders as
the empty cell (the all-`none` row renders as 19 empty cells). -/
theorem csv_header_nonempty (reports : List Report)
    (h : save_reports_rows reports ≠ []) :
    save_reports_to_csv reports
      = csvHeader :: (save_reports_rows reports).map render_row
    ∧ csvHeader
      = ["org_name", "email", "report_id", "date_range_begin", "date_range_end",
         "domain", "adkim", "aspf", "policy_p", "policy_sp", "policy_pct",
         "source_ip", "count", "disposition", "dkim", "spf", "header_from",
         "auth_results_dkim", "auth_results_spf"]
    ∧ render_row
        ⟨none, none, none, none, none, none, none, none, none, none,
         none, none, none, none, none, none, none, none, none⟩
      = List.replicate 19 "" := by
  refine ⟨?_, rfl, rfl⟩
  simp [save_reports_to_csv, to_csv_lines, h]

/-- C5 witness: one report with one record yields the header line then
one data line. -/
theorem csv_header_nonempty_witness :
    save_reports_to_csv
        [⟨mk_report_metadata none, mk_policy_published none,
          [mk_record (Element.mk "record" none [])]⟩]
      = csvHeader ::
          (save_reports_rows
            [⟨mk_report_metadata none, mk_policy_published none,
              [mk_record (Element.mk "record" none [])]⟩]).map render_row := by
  exact (csv_header_nonempty
    [⟨mk_report_metadata none, mk_policy_published none,
      [mk_record (Element.mk "record" none [])]⟩] (by decide)).1

/-- C6 counterexample: the source computes the gz output name with
`basename.replace('.gz', '')`, which removes every occurrence of `.gz`:
for the basename `a.gz.xml.gz` it produces `a.xml`, not the claimed
`a.gz.xml` obtained by stripping only the trailing suffix. -/
theorem gz_name_counterexample :
    gz_output_name "a.gz.xml.gz" = "a.xml"
    ∧ claimed_gz_name "a.gz.xml.gz" = "a.gz.xml"
    ∧ gz_output_name "a.gz.xml.gz" ≠ claimed_gz_name "a.gz.xml.gz" := by
  refine ⟨rfl, rfl, ?_⟩
  intro h
  rw [show gz_output_name "a.gz.xml.gz" = "a.xml" from rfl,
      show claimed_gz_name "a.gz.xml.gz" = "a.gz.xml" from rfl] at h
  exact absurd h (by decide)

/-- C6 (amended): the output file name is the basename with every
(non-overlapping, left-to-right) occurrence of `.gz` removed; when `.gz`
occurs nowhere except as the trailing suffix this coincides with
stripping the suffix, but an inner `.gz` is removed as well. -/
theorem gz_name_strips_all_occurrences (s : List Char)
    (h : containsGz s = false) :
    gz_output_name ⟨s ++ ['.', 'g', 'z']⟩ = ⟨s⟩ := by
  show String.mk (removeGz (s ++ ['.', 'g', 'z'])) = String.mk s
  have key : removeGz (s ++ ['.', 'g', 'z']) = s := by
    induction s with
    | nil => rfl
    | cons c s' ih =>
      cases s' with
      | nil =>
        show removeGz [c, '.', 'g', 'z'] = [c]
        rw [removeGz, if_neg]
        · rfl
        · rintro ⟨-, h2, -⟩; exact absurd h2 (by decide)
      | cons d s'' =>
        cases s'' with
        | nil =>
          show removeGz [c, d, '.', 'g', 'z'] = [c, d]
          rw [removeGz, if_neg, removeGz, if_neg]
          · rfl
          · rintro ⟨-, h2, -⟩; exact absurd h2 (by decide)
          · rintro ⟨-, -, h3⟩; exact absurd h3 (by decide)
        | cons e t =>
          have hsplit : ¬(c = '.' ∧ d = 'g' ∧ e = 'z') ∧ containsGz (d :: e :: t) = false := by
            rw [containsGz] at h
            simpa using h
          have hgoal : removeGz ((c :: d :: e :: t) ++ ['.', 'g', 'z'])
              = c :: removeGz ((d :: e :: t) ++ ['.', 'g', 'z']) := by
            show removeGz (c :: d :: e :: (t ++ ['.', 'g', 'z']))
              = c :: removeGz (d :: e :: (t ++ ['.', 'g', 'z']))
            rw [removeGz, if_neg hsplit.1]
          rw [hgoal, ih hsplit.2]
  rw [key]

/-- C6 witness: a basename with no inner `.gz` has exactly its trailing
suffix stripped. -/
theorem gz_name_strips_all_occurrences_witness :
    containsGz ['r', 'e', 'p', 'o', 'r', 't', '.', 'x', 'm', 'l'] = false
    ∧ gz_output_name ⟨['r', 'e', 'p', 'o', 'r', 't', '.', 'x', 'm', 'l'] ++ ['.', 'g', 'z']⟩
      = ⟨['r', 'e', 'p', 'o', 'r', 't', '.', 'x', 'm', 'l']⟩ := by
  exact ⟨rfl,
    gz_name_strips_all_occurrences ['r', 'e', 'p', 'o', 'r', 't', '.', 'x', 'm', 'l'] rfl⟩

/-- C7: the `finally` clause runs the cleanup whether the pipeline body
succeeds or raises, and cleanup leaves exactly the files whose names do
not end in `.xml` — every `.xml` file (at any depth of the walked tree)
is deleted, every other file is kept. -/
theorem cleanup_runs_on_all_paths (outcome : Except String Unit) (files : List String) :
    pipeline_run outcome files = cleanup_extracted_files files
    ∧ ∀ f, f ∈ pipeline_run outcome files
        ↔ (f ∈ files ∧ pyEndsWith f ['.', 'x', 'm', 'l'] = false) := by
  have hrun : pipeline_run outcome files = cleanup_extracted_files files := by
    cases outcome <;> rfl
  refine ⟨hrun, ?_⟩
  intro f
  rw [hrun]
  simp [cleanup_extracted_files, List.mem_filter]

/-- C7 witness: after a failing run, the `.xml` file is gone and the CSV
file remains. -/
theorem cleanup_runs_on_all_paths_witness :
    pipeline_run (Except.error "ParseError") ["report.xml", "out.csv"] = ["out.csv"]
    ∧ ("out.csv" ∈ pipeline_run (Except.error "ParseError") ["report.xml", "out.csv"]
        ↔ ("out.csv" ∈ ["report.xml", "out.csv"]
            ∧ pyEndsWith "out.csv" ['.', 'x', 'm', 'l'] = false)) := by
  exact ⟨rfl,
    (cleanup_runs_on_all_paths (Except.error "ParseError") ["report.xml", "out.csv"]).2
      "out.csv"⟩

/-- C8 counterexample: with 21 groups all summing to 1, `"z"` is the
first-encountered group, yet `groupby` (which sorts groups by key) and
`nlargest(20)` (which keeps the earlier — i.e. lexicographically smaller
— keys on ties) drop `"z"`: the tie is not broken in favour of the
first-encountered group as the claim states. -/
theorem top_ips_tiebreak_counterexample :
    (("z", 1) :: (["a", "b", "c", "d", "e", "f", "g", "h", "i", "j", "k", "l",
        "m", "n", "o", "p", "q", "r", "s", "t"].map (fun k => (k, 1)))).head?
      = some ("z", 1)
    ∧ (group_sums (("z", 1) :: (["a", "b", "c", "d", "e", "f", "g", "h", "i", "j",
        "k", "l", "m", "n", "o", "p", "q", "r", "s", "t"].map (fun k => (k, 1))))).length
      = 21
    ∧ ("z", 1) ∉ top_source_ips (("z", 1) :: (["a", "b", "c", "d", "e", "f", "g",
        "h", "i", "j", "k", "l", "m", "n", "o", "p", "q", "r", "s", "t"].map
          (fun k => (k, 1))))
    ∧ ("t", 1) ∈ top_source_ips (("z", 1) :: (["a", "b", "c", "d", "e", "f", "g",
        "h", "i", "j", "k", "l", "m", "n", "o", "p", "q", "r", "s", "t"].map
          (fun k => (k, 1)))) := by
  refine ⟨rfl, rfl, ?_, ?_⟩
  · intro h
    rw [show top_source_ips (("z", 1) :: (["a", "b", "c", "d", "e", "f", "g",
        "h", "i", "j", "k", "l", "m", "n", "o", "p", "q", "r", "s", "t"].map
          (fun k => (k, 1))))
      = (["a", "b", "c", "d", "e", "f", "g", "h", "i", "j", "k", "l", "m", "n",
          "o", "p", "q", "r", "s", "t"].map (fun k => (k, 1))) from rfl] at h
    simp only [List.mem_map] at h
    obtain ⟨k, hkmem, hk⟩ := h
    have hk' : k = "z" := congrArg Prod.fst hk
    subst hk'
    exact absurd hkmem (by decide)
  · rw [show top_source_ips (("z", 1) :: (["a", "b", "c", "d", "e", "f", "g",
        "h", "i", "j", "k", "l", "m", "n", "o", "p", "q", "r", "s", "t"].map
          (fun k => (k, 1))))
      = (["a", "b", "c", "d", "e", "f", "g", "h", "i", "j", "k", "l", "m", "n",
          "o", "p", "q", "r", "s", "t"].map (fun k => (k, 1))) from rfl]
    exact List.mem_map.2 ⟨"t", by simp, rfl⟩

/-- C8 (amended): the visualizer groups rows by `source_ip` and sums the
`count` per group — on `[A,A,B,C]` with counts `[1,2,5,10]` the result is
`C:10, B:5, A:3` — and selects up to 20 groups with the largest sums,
sorted descending; ties are broken towards the group earlier in the
key-sorted series (the lexicographically smaller `source_ip`), not the
first-encountered group. With at most 20 groups, every group is returned,
sorted descending by sum. -/
theorem top_ips_aggregation (rows : List (String × Nat))
    (h : (group_sums rows).length ≤ 20) :
    top_source_ips [("A", 1), ("A", 2), ("B", 5), ("C", 10)]
      = [("C", 10), ("B", 5), ("A", 3)]
    ∧ (top_source_ips rows).Perm (group_sums rows)
    ∧ List.Sorted byCountDesc (top_source_ips rows) := by
  refine ⟨rfl, ?_, ?_⟩
  · have hlen : ((group_sums rows).insertionSort byCountDesc).length ≤ 20 := by
      rw [List.length_insertionSort]
      exact h
    rw [top_source_ips, List.take_of_length_le hlen]
    exact List.perm_insertionSort byCountDesc (group_sums rows)
  · exact List.Pairwise.sublist (List.take_sublist 20 _)
      (List.sorted_insertionSort byCountDesc (group_sums rows))

/-- C8 witness: at the specification's example rows the aggregation is
`C:10, B:5, A:3`, a permutation of the three groups, sorted descending. -/
theorem top_ips_aggregation_witness :
    top_source_ips [("A", 1), ("A", 2), ("B", 5), ("C", 10)]
      = [("C", 10), ("B", 5), ("A", 3)]
    ∧ (top_source_ips [("A", 1), ("A", 2), ("B", 5), ("C", 10)]).Perm
        (group_sums [("A", 1), ("A", 2), ("B", 5), ("C", 10)])
    ∧ List.Sorted byCountDesc (top_source_ips [("A", 1), ("A", 2), ("B", 5), ("C", 10)]) := by
  exact top_ips_aggregation [("A", 1), ("A", 2), ("B", 5), ("C", 10)]
    (by rw [show (group_sums [("A", 1), ("A", 2), ("B", 5), ("C", 10)]).length = 3 from rfl]
        omega)

end Dmarc
